import Mathlib

/-!
Verification development for the canvas editing core of the dragndrop-studio
photo decoration editor.

The embedding below is a shallow model of the TypeScript sources:
the scene model and item operations (`useItemOperations` in
`hooks/useCanvasHooks.ts` and the drag handlers in the canvas components),
the undo/redo history engine (`useCanvasHistory` and the inline history in
`Canvas.tsx`), the drop placement of the config-based `PhotoCanvas`, and the
geometric part of the export pipeline (`useExportImage`).

JavaScript numbers are modelled as rationals; rotations, which start at 0 and
only ever change by whole multiples of 15 degrees before being reduced with
the JavaScript remainder operator, are modelled as integers, with `Int.tmod`
standing for the JavaScript `%` (remainder with the sign of the dividend).
-/

namespace DndStudio

/-- Container / canvas size in CSS pixels (`CanvasSize` in useCanvasHooks). -/
structure CanvasSize where
  width : ℚ
  height : ℚ
deriving DecidableEq, Repr

/-- A placed decoration item (`PlacedItem` in useCanvasHooks / Canvas.tsx). -/
structure PlacedItem where
  id : String
  itemId : String
  image : String
  x : ℚ
  y : ℚ
  width : ℚ
  height : ℚ
  rotation : ℤ
deriving DecidableEq, Repr

/-- A scene is the ordered list of placed items (order = z-order). -/
abbrev Scene := List PlacedItem

/-! Constants from `config/canvasConfig.ts` (`CANVAS_CONFIG`), which is what
the hook-based pipeline (useCanvasHooks / useCanvasDragDrop and the
config-based PhotoCanvas) reads. -/

/-- `CANVAS_CONFIG.rotation.step`. -/
def ROTATION_STEP : ℤ := 15

/-- `CANVAS_CONFIG.item.minSize` (note: 20 in the config, while the legacy
`Canvas.tsx` hard-codes its own `MIN_ITEM_SIZE = 40`). -/
def MIN_ITEM_SIZE : ℚ := 20

/-- `CANVAS_CONFIG.item.maxSize`. -/
def MAX_ITEM_SIZE : ℚ := 200

/-- `CANVAS_CONFIG.item.defaultSize`. -/
def DEFAULT_ITEM_SIZE : ℚ := 40

/-- `CANVAS_CONFIG.drag.itemOffset` (half of the default item size). -/
def ITEM_OFFSET : ℚ := 20

/-- The legacy `Canvas.tsx` minimum item size constant. -/
def legacyMinItemSize : ℚ := 40

/-! ## Item operations

Pure scene-to-scene functions: the `newItems` computations of
`useItemOperations` (handleRotate / handleResize / handleRemoveItem) and of
the drag-end move branch. Names follow the specification (rotateItem,
resizeItem, moveItem, removeItem); bodies are translated from the source. -/

/-- One rotation write: `(item.rotation + direction * ROTATION_STEP) % 360`
with the JavaScript remainder (sign of the dividend), i.e. `Int.tmod`. -/
def rotateStep (r : ℤ) (direction : ℤ) : ℤ :=
  (r + direction * ROTATION_STEP).tmod 360

/-- `handleRotate`: map over the scene, updating the matching item. -/
def rotateItem (placedItems : Scene) (itemId : String) (direction : ℤ) : Scene :=
  placedItems.map fun item =>
    if item.id = itemId then
      { item with rotation := rotateStep item.rotation direction }
    else item

/-- `handleResize`: `Math.max(MIN, Math.min(MAX, size + delta))` on both axes. -/
def resizeItem (placedItems : Scene) (itemId : String) (delta : ℚ) : Scene :=
  placedItems.map fun item =>
    if item.id = itemId then
      { item with
        width := max MIN_ITEM_SIZE (min MAX_ITEM_SIZE (item.width + delta)),
        height := max MIN_ITEM_SIZE (min MAX_ITEM_SIZE (item.height + delta)) }
    else item

/-- `handleRemoveItem`: `placedItems.filter(item => item.id !== itemId)`. -/
def removeItem (placedItems : Scene) (itemId : String) : Scene :=
  placedItems.filter fun item => item.id != itemId

/-- The moving-placed branch of `handleDragEnd`:
`x = Math.max(0, Math.min(item.x + delta.x, canvasSize.width - item.width))`,
and likewise for `y`. -/
def moveItem (placedItems : Scene) (activeId : String) (dx dy : ℚ)
    (canvasSize : CanvasSize) : Scene :=
  placedItems.map fun item =>
    if item.id = activeId then
      { item with
        x := max 0 (min (item.x + dx) (canvasSize.width - item.width)),
        y := max 0 (min (item.y + dy) (canvasSize.height - item.height)) }
    else item

/-- The from-catalog branch of the config-based `PhotoCanvas.handleDragEnd`:
the new item is centered on the final pointer position (`- ITEM_OFFSET`) and
clamped into the container, with the configured default size and rotation 0,
then appended to the scene. `pointerFinalX/Y` is the drop point in container
space; `newId` stands for the generated `placed-${Date.now()}` id. -/
def addItem (placedItems : Scene) (newId sourceItemId image : String)
    (pointerFinalX pointerFinalY : ℚ) (canvasSize : CanvasSize) : Scene :=
  let finalX := max 0 (min (pointerFinalX - ITEM_OFFSET)
    (canvasSize.width - DEFAULT_ITEM_SIZE))
  let finalY := max 0 (min (pointerFinalY - ITEM_OFFSET)
    (canvasSize.height - DEFAULT_ITEM_SIZE))
  placedItems ++
    [{ id := newId, itemId := sourceItemId, image := image, x := finalX,
       y := finalY, width := DEFAULT_ITEM_SIZE, height := DEFAULT_ITEM_SIZE,
       rotation := 0 }]

/-! ## History engine

`useCanvasHistory` (useCanvasHooks.ts) and the inline history of `Canvas.tsx`
share the same saveToHistory / undo / redo / canUndo / canRedo logic; only
the initial value differs between the two variants. The state is generic in
the element type of a snapshot so that the untyped initial value of the hook
variant can be modelled faithfully (see `JVal` below). -/

/-- The history state: `history`, `historyIndex` and the displayed
`placedItems`, as held by the React state of both variants. -/
structure HistoryState (β : Type) where
  history : List (List β)
  historyIndex : ℕ
  placedItems : List β
deriving DecidableEq, Repr

/-- `saveToHistory`: truncate after the cursor (`slice(0, historyIndex + 1)`),
append the new snapshot, move the cursor to the end, display the snapshot. -/
def saveToHistory {β : Type} (st : HistoryState β) (newItems : List β) :
    HistoryState β :=
  let newHistory := st.history.take (st.historyIndex + 1) ++ [newItems]
  { history := newHistory, historyIndex := newHistory.length - 1,
    placedItems := newItems }

/-- `undo`: step the cursor back when `historyIndex > 0`. -/
def undo {β : Type} (st : HistoryState β) : HistoryState β :=
  if 0 < st.historyIndex then
    let newIndex := st.historyIndex - 1
    { st with
      historyIndex := newIndex,
      placedItems := st.history.getD newIndex [] }
  else st

/-- `redo`: step the cursor forward when `historyIndex < history.length - 1`. -/
def redo {β : Type} (st : HistoryState β) : HistoryState β :=
  if st.historyIndex < st.history.length - 1 then
    let newIndex := st.historyIndex + 1
    { st with
      historyIndex := newIndex,
      placedItems := st.history.getD newIndex [] }
  else st

/-- `canUndo`: `historyIndex > 0`. -/
def canUndo {β : Type} (st : HistoryState β) : Bool :=
  decide (0 < st.historyIndex)

/-- `canRedo`: `historyIndex < history.length - 1`. -/
def canRedo {β : Type} (st : HistoryState β) : Bool :=
  decide (st.historyIndex < st.history.length - 1)

/-- The initial history of `Canvas.tsx`:
`useState<PlacedItem[][]>([[]])` with index 0 and no placed items. -/
def initialHistoryState : HistoryState PlacedItem :=
  { history := [[]], historyIndex := 0, placedItems := [] }

/-- An untyped JavaScript array value. The hook variant initialises its
history as `[[initialItems]]`, which nests the scene one level deeper than
the annotated type `PlacedItem[][]`; this inductive lets that value be
written as it is in the source. -/
inductive JVal where
  | item : PlacedItem → JVal
  | arr : List JVal → JVal

/-- The initial state of `useCanvasHistory(initialItems)` (useCanvasHooks.ts):
`history = [[initialItems]]`, `historyIndex = 0`,
`placedItems = initialItems`. The single initial snapshot is the one-element
array `[initialItems]`, not `initialItems` itself. -/
def hookInitialState (initialItems : List PlacedItem) : HistoryState JVal :=
  { history := [[JVal.arr (initialItems.map JVal.item)]],
    historyIndex := 0,
    placedItems := initialItems.map JVal.item }

/-! ## State-level handlers: item operation followed by a commit. -/

/-- `useItemOperations.handleRotate`: compute the new items and commit. -/
def handleRotate (st : HistoryState PlacedItem) (itemId : String)
    (direction : ℤ) : HistoryState PlacedItem :=
  saveToHistory st (rotateItem st.placedItems itemId direction)

/-- `useItemOperations.handleResize`: compute the new items and commit. -/
def handleResize (st : HistoryState PlacedItem) (itemId : String)
    (delta : ℚ) : HistoryState PlacedItem :=
  saveToHistory st (resizeItem st.placedItems itemId delta)

/-- `useItemOperations.handleRemoveItem`: filter and commit. -/
def handleRemoveItem (st : HistoryState PlacedItem) (itemId : String) :
    HistoryState PlacedItem :=
  saveToHistory st (removeItem st.placedItems itemId)

/-- Iterated rotation: a sequence of `rotateItem` calls on the same id. -/
def applyRotations (placedItems : Scene) (itemId : String) (ds : List ℤ) :
    Scene :=
  ds.foldl (fun cur d => rotateItem cur itemId d) placedItems

/-! ## Export pipeline (geometric part of `useExportImage.handleExport`). -/

/-- One canvas-2d draw of a placed item, as issued by `handleExport`:
`ctx.translate(translateX, translateY)`, `ctx.rotate(rotationDeg * pi / 180)`,
then `ctx.drawImage(img, destX, destY, destW, destH)` in the translated and
rotated frame. -/
structure DrawCmd where
  translateX : ℚ
  translateY : ℚ
  rotationDeg : ℤ
  destX : ℚ
  destY : ℚ
  destW : ℚ
  destH : ℚ
deriving DecidableEq, Repr

/-- The list of draw commands issued for the placed items, in scene order
(`Promise.all` preserves the order of `placedItems.map`, and the forEach
draws in that order). `scaleX = naturalWidth / canvasSize.width` and
`scaleY = naturalHeight / canvasSize.height`. -/
def drawCommands (placedItems : Scene) (canvasSize naturalSize : CanvasSize) :
    List DrawCmd :=
  let scaleX := naturalSize.width / canvasSize.width
  let scaleY := naturalSize.height / canvasSize.height
  placedItems.map fun item =>
    { translateX := (item.x + item.width / 2) * scaleX
      translateY := (item.y + item.height / 2) * scaleY
      rotationDeg := item.rotation
      destX := (-(item.width / 2)) * scaleX
      destY := (-(item.height / 2)) * scaleY
      destW := item.width * scaleX
      destH := item.height * scaleY }

/-- The absolute center of the destination rectangle of a draw command:
the translation point plus the center of the rectangle drawn in the
translated frame. -/
def DrawCmd.center (c : DrawCmd) : ℚ × ℚ :=
  (c.translateX + (c.destX + c.destW / 2), c.translateY + (c.destY + c.destH / 2))

/-- The drawn size of a draw command. -/
def DrawCmd.size (c : DrawCmd) : ℚ × ℚ :=
  (c.destW, c.destH)

/-- The environment `handleExport` reads: whether `photoRef.current` is
non-null, the `isExporting` flag, the tracked container size, the scene, and
the natural pixel size of the photo. -/
structure ExportEnv where
  photoPresent : Bool
  isExporting : Bool
  canvasSize : CanvasSize
  placedItems : Scene
  naturalSize : CanvasSize

/-- The geometric skeleton of `useExportImage.handleExport`: the two early
returns (`if (!photoRef.current) return`, `if (isExporting) return`) reject
the request; otherwise the scale factors are computed and the items are
composited. `none` means the request was rejected before compositing;
`some` carries the computed scale and draw commands. (With a zero-size
container the division is still performed by the source; rational division
by zero stands in for the resulting non-finite scale.) -/
def handleExport (env : ExportEnv) : Option (ℚ × ℚ × List DrawCmd) :=
  if !env.photoPresent then none
  else if env.isExporting then none
  else
    let scaleX := env.naturalSize.width / env.canvasSize.width
    let scaleY := env.naturalSize.height / env.canvasSize.height
    some (scaleX, scaleY, drawCommands env.placedItems env.canvasSize env.naturalSize)

/-- The disabled condition of the export button in the config-based
`PhotoCanvas`: `placedItems.length === 0 || isExporting`. -/
def exportButtonDisabled (env : ExportEnv) : Bool :=
  env.placedItems.length == 0 || env.isExporting

/-- A concrete placed item used as a test vector. -/
def ring1 : PlacedItem :=
  { id := "placed-1", itemId := "ring1", image := "ring1.png",
    x := 0, y := 0, width := 40, height := 40, rotation := 0 }

/-! ## Helper lemmas -/

/-- A map that fixes every element of a list leaves the list unchanged. -/
theorem map_eq_self_of_mem {α : Type} {l : List α} {f : α → α}
    (h : ∀ a ∈ l, f a = a) : l.map f = l := by
  induction l with
  | nil => rfl
  | cons a t ih => simp_all

/-- The JavaScript remainder keeps the residue class of its argument. -/
theorem tmod_emod (a b : ℤ) : a.tmod b % b = a % b := by
  conv_rhs => rw [← Int.tmod_add_tdiv a b]
  simp [Int.add_mul_emod_self_left]

/-- Negating the dividend negates the JavaScript remainder. -/
theorem neg_tmod (a b : ℤ) : (-a).tmod b = -(a.tmod b) := by
  simp [Int.tmod_def, Int.neg_tdiv]; ring

/-- The JavaScript remainder by 360 lies strictly between -360 and 360. -/
theorem tmod360_bounds (a : ℤ) : -360 < a.tmod 360 ∧ a.tmod 360 < 360 := by
  refine ⟨?_, Int.tmod_lt_of_pos a (by norm_num)⟩
  rcases le_or_lt 0 a with h | h
  · have := Int.tmod_nonneg 360 h
    omega
  · have h2 : (-a).tmod 360 < 360 := Int.tmod_lt_of_pos (-a) (by norm_num)
    have h3 : (-a).tmod 360 = -(a.tmod 360) := neg_tmod a 360
    omega

/-- Folding rotation steps preserves the accumulated residue modulo 360. -/
theorem foldl_rotateStep_emod (ds : List ℤ) (r : ℤ) :
    (ds.foldl rotateStep r) % 360 = (r + 15 * ds.sum) % 360 := by
  induction ds generalizing r with
  | nil => simp
  | cons d t ih =>
    rw [List.foldl_cons, ih]
    have h := tmod_emod (r + d * ROTATION_STEP) 360
    simp only [rotateStep, ROTATION_STEP] at *
    have hsum : (d :: t).sum = d + t.sum := List.sum_cons
    rw [hsum]
    omega

/-- Once a rotation value is in the residue window, folding further rotation
steps keeps it strictly between -360 and 360. -/
theorem foldl_rotateStep_bounds (ds : List ℤ) (r : ℤ)
    (h : -360 < r ∧ r < 360) :
    -360 < ds.foldl rotateStep r ∧ ds.foldl rotateStep r < 360 := by
  induction ds generalizing r with
  | nil => exact h
  | cons d t ih =>
    rw [List.foldl_cons]
    exact ih (rotateStep r d) (tmod360_bounds (r + d * ROTATION_STEP))

/-- A sequence of rotateItem calls acts pointwise: each matching item folds
the rotation steps over its own rotation, other items are untouched. -/
theorem applyRotations_map (s : Scene) (itemId : String) (ds : List ℤ) :
    applyRotations s itemId ds = s.map fun it =>
      if it.id = itemId then
        { it with rotation := ds.foldl rotateStep it.rotation }
      else it := by
  induction ds generalizing s with
  | nil =>
    simp only [applyRotations, List.foldl_nil]
    symm
    apply map_eq_self_of_mem
    intro a _
    split <;> rfl
  | cons d t ih =>
    have step : applyRotations s itemId (d :: t)
        = applyRotations (rotateItem s itemId d) itemId t := rfl
    rw [step, ih, rotateItem, List.map_map]
    apply List.map_congr_left
    intro a _
    by_cases ha : a.id = itemId
    · simp [Function.comp, ha]
    · simp [Function.comp, ha]

/-- Taking one element past a list keeps that list and one more element. -/
theorem take_append_cons {α : Type} (T : List α) (x : α) (rest : List α) :
    (T ++ x :: rest).take (T.length + 1) = T ++ [x] := by
  rw [List.take_append_eq_append_take]
  simp

/-- Reading the element just past the first part of an append. -/
theorem getD_append_cons {α : Type} (T : List α) (x : α) (rest : List α)
    (d : α) : (T ++ x :: rest).getD T.length d = x := by
  rw [List.getD_eq_getElem?_getD, List.getElem?_append_right le_rfl]
  simp

/-- The shape of a single commit: truncate, append, point at the end. -/
theorem saveToHistory_eq {β : Type} (st : HistoryState β) (x : List β) :
    saveToHistory st x
      = ⟨st.history.take (st.historyIndex + 1) ++ [x],
         (st.history.take (st.historyIndex + 1)).length, x⟩ := by
  simp [saveToHistory]

/-- Two commits in a row append two snapshots. -/
theorem save_save_eq {β : Type} (st : HistoryState β) (x y : List β) :
    saveToHistory (saveToHistory st x) y
      = ⟨st.history.take (st.historyIndex + 1) ++ [x, y],
         (st.history.take (st.historyIndex + 1)).length + 1, y⟩ := by
  have h : (st.history.take (st.historyIndex + 1) ++ [x]).take
      ((st.history.take (st.historyIndex + 1)).length + 1)
      = st.history.take (st.historyIndex + 1) ++ [x] :=
    List.take_of_length_le (by simp)
  rw [saveToHistory_eq, saveToHistory_eq, h]
  simp

/-- Three commits in a row append three snapshots. -/
theorem save_save_save_eq {β : Type} (st : HistoryState β)
    (x y z : List β) :
    saveToHistory (saveToHistory (saveToHistory st x) y) z
      = ⟨st.history.take (st.historyIndex + 1) ++ [x, y, z],
         (st.history.take (st.historyIndex + 1)).length + 2, z⟩ := by
  have h : (st.history.take (st.historyIndex + 1) ++ [x, y]).take
      ((st.history.take (st.historyIndex + 1)).length + 1 + 1)
      = st.history.take (st.historyIndex + 1) ++ [x, y] :=
    List.take_of_length_le (by simp)
  rw [save_save_eq st x y, saveToHistory_eq]
  dsimp only
  rw [h]
  simp

/-- Undoing from a positive cursor steps back and displays that snapshot. -/
theorem undo_eq {β : Type} (history : List (List β)) (k : ℕ) (p : List β) :
    undo ⟨history, k + 1, p⟩ = ⟨history, k, history.getD k []⟩ := by
  simp [undo]

/-! ## Claims -/

/-- Claim C1, evaluated at the failing input: the configured minimum item
size is 20, so `resizeItem` with delta -1000 on an item of width 40 clamps
to width 20, not 40 as the claim (and the README: sizes constrained to the
40-200px range) states. -/
theorem c1_resize_floor_evaluation :
    resizeItem [ring1] "placed-1" (-1000)
      = [{ ring1 with width := 20, height := 20 }] ∧
    ¬ (∀ it ∈ resizeItem [ring1] "placed-1" (-1000), 40 ≤ it.width) := by
  constructor
  · simp only [resizeItem, List.map_cons, List.map_nil, if_pos rfl]
    norm_num [ring1, MIN_ITEM_SIZE, MAX_ITEM_SIZE]
  · intro hall
    have h := hall ({ ring1 with width := 20, height := 20 })
      (by simp only [resizeItem, List.map_cons, List.map_nil, if_pos rfl]
          norm_num [ring1, MIN_ITEM_SIZE, MAX_ITEM_SIZE])
    norm_num [ring1] at h

/-- Claim C2 counterexample: one counter-clockwise rotation from rotation 0
stores -15 (the JavaScript remainder keeps the sign of the dividend), which
is not in the claimed display window [0, 360). -/
theorem c2_rotation_counterexample :
    (rotateItem [ring1] "placed-1" (-1)).map PlacedItem.rotation
      = [(-15 : ℤ)] ∧
    ¬ (∀ r ∈ (rotateItem [ring1] "placed-1" (-1)).map PlacedItem.rotation,
        0 ≤ r ∧ r < 360) := by
  constructor
  · decide
  · decide

/-- Claim C2 amended: after any sequence of rotateItem calls with directions
+1 or -1 on an item starting at rotation 0, the stored (and displayed)
rotation is congruent modulo 360 to the sum of the 15-degree steps and lies
strictly between -360 and 360; it need not lie in [0, 360). -/
theorem c2_rotation_amended (it : PlacedItem) (h0 : it.rotation = 0)
    (ds : List ℤ) (hds : ∀ d ∈ ds, d = 1 ∨ d = -1) :
    ∀ jt ∈ applyRotations [it] it.id ds,
      jt.rotation % 360 = (15 * ds.sum) % 360 ∧
      -360 < jt.rotation ∧ jt.rotation < 360 := by
  intro jt hjt
  rw [applyRotations_map] at hjt
  simp only [List.map_cons, List.map_nil, List.mem_singleton, if_pos rfl]
    at hjt
  have hrot : jt.rotation = ds.foldl rotateStep it.rotation := by
    simp [hjt]
  refine ⟨?_, ?_⟩
  · have h := foldl_rotateStep_emod ds it.rotation
    rw [h0] at h
    rw [hrot, h0]
    simpa using h
  · rw [hrot]
    rcases ds with _ | ⟨d, t⟩
    · simp only [List.foldl_nil, h0]
      norm_num
    · rw [List.foldl_cons]
      exact foldl_rotateStep_bounds t (rotateStep it.rotation d)
        (tmod360_bounds (it.rotation + d * ROTATION_STEP))

/-- Witness for the amended claim C2, at one counter-clockwise step. -/
theorem c2_rotation_amended_witness :
    ({ ring1 with rotation := -15 } : PlacedItem).rotation % 360
      = (15 * ([-1] : List ℤ).sum) % 360 ∧
    -360 < ({ ring1 with rotation := -15 } : PlacedItem).rotation ∧
    ({ ring1 with rotation := -15 } : PlacedItem).rotation < 360 :=
  c2_rotation_amended ring1 rfl [-1] (by decide)
    ({ ring1 with rotation := -15 }) (by decide)

/-- Claim C8: rotateItem, resizeItem, moveItem and removeItem with an id
absent from the scene return the scene unchanged. -/
theorem c8_missing_id_noop (s : Scene) (itemId : String)
    (h : ∀ it ∈ s, it.id ≠ itemId) (direction : ℤ) (delta dx dy : ℚ)
    (canvasSize : CanvasSize) :
    rotateItem s itemId direction = s ∧ resizeItem s itemId delta = s ∧
    moveItem s itemId dx dy canvasSize = s ∧ removeItem s itemId = s := by
  refine ⟨?_, ?_, ?_, ?_⟩
  · exact map_eq_self_of_mem fun a ha => if_neg (h a ha)
  · exact map_eq_self_of_mem fun a ha => if_neg (h a ha)
  · exact map_eq_self_of_mem fun a ha => if_neg (h a ha)
  · apply List.filter_eq_self.mpr
    intro a ha
    simpa using h a ha

/-- Witness for claim C8 at a concrete scene and missing id. -/
theorem c8_missing_id_noop_witness :
    rotateItem [ring1] "ghost" 1 = [ring1] ∧
    resizeItem [ring1] "ghost" 10 = [ring1] ∧
    moveItem [ring1] "ghost" 5 5 ⟨300, 200⟩ = [ring1] ∧
    removeItem [ring1] "ghost" = [ring1] :=
  c8_missing_id_noop [ring1] "ghost" (by decide) 1 10 5 5 ⟨300, 200⟩

/-- Claim C3, evaluated at the failing input: `useCanvasHistory` initialises
its history as `[[initialItems]]`, so the single initial snapshot is the
one-element array `[initialItems]`, not the empty scene; after one commit
followed by undo the displayed snapshot is that one-element array. The
inline `Canvas.tsx` variant, initialised with `[[]]`, behaves as claimed. -/
theorem c3_initial_snapshot_evaluation :
    (undo (saveToHistory (hookInitialState []) [JVal.item ring1])).placedItems
      = [JVal.arr []] ∧
    ([JVal.arr []] : List JVal) ≠ [] ∧
    (undo (saveToHistory initialHistoryState [ring1])).placedItems = [] := by
  refine ⟨rfl, ?_, rfl⟩
  simp

/-- Claim C7: dropping on an empty scene at (50,50) in a 300x200 container
creates one item of the configured default size 40, rotation 0, centered on
the drop point and clamped, hence at (30,30); committing it from the initial
history state makes canUndo true. -/
theorem c7_add_item_scenario (newId sourceItemId image : String) :
    addItem [] newId sourceItemId image 50 50 ⟨300, 200⟩
      = [{ id := newId, itemId := sourceItemId, image := image, x := 30,
           y := 30, width := 40, height := 40, rotation := 0 }] ∧
    canUndo (saveToHistory initialHistoryState
      (addItem [] newId sourceItemId image 50 50 ⟨300, 200⟩)) = true := by
  constructor
  · simp only [addItem]
    norm_num [ITEM_OFFSET, DEFAULT_ITEM_SIZE]
  · rfl

/-- Claim C4 counterexample: in a 30x30 container (smaller than the item),
moving a 40x40 item clamps its position to 0, and 0 does not satisfy the
claimed bound x ≤ containerWidth - width = -10: the claimed interval is
empty there. -/
theorem c4_move_clamp_counterexample :
    (moveItem [ring1] "placed-1" 50 50 ⟨30, 30⟩).map PlacedItem.x
      = [(0 : ℚ)] ∧
    ¬ (∀ it ∈ moveItem [ring1] "placed-1" 50 50 ⟨30, 30⟩,
        it.x ≤ 30 - it.width) := by
  have hev : moveItem [ring1] "placed-1" 50 50 ⟨30, 30⟩ = [ring1] := by
    norm_num [moveItem, ring1]
  constructor
  · rw [hev]
    norm_num [ring1]
  · rw [hev]
    intro hall
    have h := hall ring1 (by simp)
    norm_num [ring1] at h

/-- Claim C4 amended: every item clamped by a moveItem call, and every item
appended by an addItem call, satisfies 0 ≤ x ≤ max 0 (W - width) and
0 ≤ y ≤ max 0 (H - height) with the container size passed to that call (the
upper bound collapses to 0 when the container is smaller than the item);
and the concrete scenario holds: moving the item at (280,180) by (50,50) in
a 300x200 container clamps to (260,160). -/
theorem c4_move_clamp_amended :
    (∀ (s : Scene) (activeId : String) (dx dy : ℚ)
      (canvasSize : CanvasSize),
      ∀ it ∈ moveItem s activeId dx dy canvasSize, it.id = activeId →
        0 ≤ it.x ∧ it.x ≤ max 0 (canvasSize.width - it.width) ∧
        0 ≤ it.y ∧ it.y ≤ max 0 (canvasSize.height - it.height)) ∧
    (∀ (s : Scene) (newId sourceItemId image : String) (px py : ℚ)
      (canvasSize : CanvasSize),
      ∀ it ∈ addItem s newId sourceItemId image px py canvasSize,
        it ∈ s ∨
        (0 ≤ it.x ∧ it.x ≤ max 0 (canvasSize.width - it.width) ∧
         0 ≤ it.y ∧ it.y ≤ max 0 (canvasSize.height - it.height))) ∧
    moveItem [{ ring1 with x := 280, y := 180 }] "placed-1" 50 50 ⟨300, 200⟩
      = [{ ring1 with x := 260, y := 160 }] := by
  refine ⟨?_, ?_, ?_⟩
  · intro s activeId dx dy canvasSize it hit hid
    rw [moveItem, List.mem_map] at hit
    obtain ⟨a, ha, hfa⟩ := hit
    by_cases haid : a.id = activeId
    · rw [if_pos haid] at hfa
      subst hfa
      refine ⟨le_max_left _ _, ?_, le_max_left _ _, ?_⟩
      · exact max_le_max le_rfl (min_le_right _ _)
      · exact max_le_max le_rfl (min_le_right _ _)
    · rw [if_neg haid] at hfa
      subst hfa
      exact absurd hid haid
  · intro s newId sourceItemId image px py canvasSize it hit
    rw [addItem, List.mem_append] at hit
    rcases hit with hit | hit
    · exact Or.inl hit
    · right
      rw [List.mem_singleton] at hit
      subst hit
      refine ⟨le_max_left _ _, ?_, le_max_left _ _, ?_⟩
      · exact max_le_max le_rfl (min_le_right _ _)
      · exact max_le_max le_rfl (min_le_right _ _)
  · norm_num [moveItem, ring1]

/-- Witness for the amended claim C4, at the concrete scenario values. -/
theorem c4_move_clamp_amended_witness :
    0 ≤ ({ ring1 with x := 260, y := 160 } : PlacedItem).x ∧
    ({ ring1 with x := 260, y := 160 } : PlacedItem).x
      ≤ max 0 ((⟨300, 200⟩ : CanvasSize).width
          - ({ ring1 with x := 260, y := 160 } : PlacedItem).width) ∧
    0 ≤ ({ ring1 with x := 260, y := 160 } : PlacedItem).y ∧
    ({ ring1 with x := 260, y := 160 } : PlacedItem).y
      ≤ max 0 ((⟨300, 200⟩ : CanvasSize).height
          - ({ ring1 with x := 260, y := 160 } : PlacedItem).height) :=
  c4_move_clamp_amended.1 [{ ring1 with x := 280, y := 180 }] "placed-1"
    50 50 ⟨300, 200⟩ ({ ring1 with x := 260, y := 160 })
    (by norm_num [moveItem, ring1]) rfl

/-- Claim C5: committing A then B, undoing, and committing C truncates the
redo branch: redo is then a no-op, the displayed scene is C, and canRedo is
false; likewise after three commits, two undos and one new commit canRedo is
false. Proven from an arbitrary starting history state. -/
theorem c5_history_linearity (st : HistoryState PlacedItem)
    (A B C D : Scene) :
    redo (saveToHistory (undo (saveToHistory (saveToHistory st A) B)) C)
      = saveToHistory (undo (saveToHistory (saveToHistory st A) B)) C ∧
    HistoryState.placedItems
      (saveToHistory (undo (saveToHistory (saveToHistory st A) B)) C) = C ∧
    canRedo (saveToHistory (undo (saveToHistory (saveToHistory st A) B)) C)
      = false ∧
    canRedo (saveToHistory (undo (undo (saveToHistory (saveToHistory
      (saveToHistory st A) B) C))) D) = false := by
  have hg : (st.history.take (st.historyIndex + 1) ++ [A, B]).getD
      (st.history.take (st.historyIndex + 1)).length [] = A :=
    getD_append_cons _ A [B] []
  have e1 : undo (saveToHistory (saveToHistory st A) B)
      = ⟨st.history.take (st.historyIndex + 1) ++ [A, B],
         (st.history.take (st.historyIndex + 1)).length, A⟩ := by
    rw [save_save_eq, undo_eq, hg]
  have ht : (st.history.take (st.historyIndex + 1) ++ [A, B]).take
      ((st.history.take (st.historyIndex + 1)).length + 1)
      = st.history.take (st.historyIndex + 1) ++ [A] :=
    take_append_cons _ A [B]
  have e2 : saveToHistory (undo (saveToHistory (saveToHistory st A) B)) C
      = ⟨st.history.take (st.historyIndex + 1) ++ [A, C],
         (st.history.take (st.historyIndex + 1)).length + 1, C⟩ := by
    rw [e1, saveToHistory_eq, ht]
    simp
  have e3 : saveToHistory (saveToHistory (saveToHistory st A) B) C
      = ⟨st.history.take (st.historyIndex + 1) ++ [A, B, C],
         (st.history.take (st.historyIndex + 1)).length + 2, C⟩ :=
    save_save_save_eq st A B C
  refine ⟨?_, ?_, ?_, ?_⟩
  · rw [e2, redo, if_neg (by simp)]
  · rw [e2]
  · rw [e2]
    simp [canRedo]
  · have e4 : undo (undo (saveToHistory (saveToHistory
        (saveToHistory st A) B) C))
        = ⟨st.history.take (st.historyIndex + 1) ++ [A, B, C],
           (st.history.take (st.historyIndex + 1)).length,
           (st.history.take (st.historyIndex + 1)
             ++ [A, B, C]).getD
             (st.history.take (st.historyIndex + 1)).length []⟩ := by
      rw [e3, undo_eq, undo_eq]
    have ht2 : (st.history.take (st.historyIndex + 1) ++ [A, B, C]).take
        ((st.history.take (st.historyIndex + 1)).length + 1)
        = st.history.take (st.historyIndex + 1) ++ [A] :=
      take_append_cons _ A [B, C]
    rw [e4, saveToHistory_eq, ht2]
    simp [canRedo]

/-- Claim C10: rotateItem, resizeItem or removeItem with an id absent from
the scene still commits: the history gains a snapshot equal to the current
scene, the redo branch is truncated (canRedo false) and canUndo becomes
true, while the displayed scene is unchanged. -/
theorem c10_missing_id_commits (st : HistoryState PlacedItem)
    (hne : st.history ≠ []) (itemId : String)
    (habs : ∀ it ∈ st.placedItems, it.id ≠ itemId) (direction : ℤ)
    (delta : ℚ) :
    ∀ st' ∈ [handleRotate st itemId direction, handleResize st itemId delta,
      handleRemoveItem st itemId],
      st'.placedItems = st.placedItems ∧
      st'.history = st.history.take (st.historyIndex + 1)
        ++ [st.placedItems] ∧
      canRedo st' = false ∧ canUndo st' = true := by
  have h1 : rotateItem st.placedItems itemId direction = st.placedItems :=
    map_eq_self_of_mem fun a ha => if_neg (habs a ha)
  have h2 : resizeItem st.placedItems itemId delta = st.placedItems :=
    map_eq_self_of_mem fun a ha => if_neg (habs a ha)
  have h3 : removeItem st.placedItems itemId = st.placedItems := by
    apply List.filter_eq_self.mpr
    intro a ha
    simpa using habs a ha
  have key : (saveToHistory st st.placedItems).placedItems
        = st.placedItems ∧
      (saveToHistory st st.placedItems).history
        = st.history.take (st.historyIndex + 1) ++ [st.placedItems] ∧
      canRedo (saveToHistory st st.placedItems) = false ∧
      canUndo (saveToHistory st st.placedItems) = true := by
    rw [saveToHistory_eq]
    refine ⟨rfl, rfl, by simp [canRedo], ?_⟩
    have hlen : 0 < st.history.length := List.length_pos.mpr hne
    simp [canUndo, List.length_take]
    omega
  intro st' hst'
  simp only [List.mem_cons, List.not_mem_nil, or_false] at hst'
  rcases hst' with h | h | h <;> subst h
  · rw [handleRotate, h1]
    exact key
  · rw [handleResize, h2]
    exact key
  · rw [handleRemoveItem, h3]
    exact key

/-- Witness for claim C10 at the initial state and a missing id. -/
theorem c10_missing_id_commits_witness :
    (handleRotate initialHistoryState "ghost" 1).placedItems
      = initialHistoryState.placedItems ∧
    (handleRotate initialHistoryState "ghost" 1).history
      = initialHistoryState.history.take
          (initialHistoryState.historyIndex + 1)
        ++ [initialHistoryState.placedItems] ∧
    canRedo (handleRotate initialHistoryState "ghost" 1) = false ∧
    canUndo (handleRotate initialHistoryState "ghost" 1) = true :=
  c10_missing_id_commits initialHistoryState
    (by simp [initialHistoryState]) "ghost"
    (by simp [initialHistoryState]) 1 10
    (handleRotate initialHistoryState "ghost" 1) (by simp)

/-- Claim C6 counterexample: handleExport does not reject a zero-size
container, nor an empty scene, before compositing; with a present photo and
no export in flight it proceeds in both situations. -/
theorem c6_export_guard_counterexample :
    handleExport
      { photoPresent := true, isExporting := false,
        canvasSize := ⟨0, 200⟩, placedItems := [ring1],
        naturalSize := ⟨800, 600⟩ } ≠ none ∧
    handleExport
      { photoPresent := true, isExporting := false,
        canvasSize := ⟨300, 200⟩, placedItems := [],
        naturalSize := ⟨800, 600⟩ } ≠ none := by
  constructor <;> simp [handleExport]

/-- Claim C6 amended: handleExport rejects a request before compositing
exactly when the photo element is missing or another export is in flight
(single-flight); the empty-scene and busy cases are additionally surfaced
by disabling the export button, while a zero-size container is not guarded
anywhere and reaches the scale computation. -/
theorem c6_export_guard_amended (env : ExportEnv) :
    (handleExport env = none
      ↔ env.photoPresent = false ∨ env.isExporting = true) ∧
    (exportButtonDisabled env = true
      ↔ env.placedItems = [] ∨ env.isExporting = true) := by
  constructor
  · rw [handleExport]
    cases hp : env.photoPresent <;> cases he : env.isExporting <;>
      simp [hp, he]
  · rw [exportButtonDisabled]
    cases he : env.isExporting <;>
      simp [he, List.length_eq_zero]

/-- The geometric item placements as the specification words them: for each
item in scene order, the center ((x+width/2)*scaleX, (y+height/2)*scaleY),
the rotation in degrees, and the size (width*scaleX, height*scaleY). This
definition follows the specification text, for comparison against
`drawCommands`, which is translated from the source. -/
def specItemPlacement (placedItems : Scene)
    (canvasSize naturalSize : CanvasSize) :
    List ((ℚ × ℚ) × ℤ × (ℚ × ℚ)) :=
  placedItems.map fun item =>
    (((item.x + item.width / 2) * (naturalSize.width / canvasSize.width),
      (item.y + item.height / 2) * (naturalSize.height / canvasSize.height)),
     item.rotation,
     (item.width * (naturalSize.width / canvasSize.width),
      item.height * (naturalSize.height / canvasSize.height)))

/-- Claim C9: the draw commands issued by the export are a function of the
scene, container size and natural size; item by item, in scene order, the
drawn rectangle is centered at ((x+width/2)*scaleX, (y+height/2)*scaleY),
has size (width*scaleX, height*scaleY), carries the item rotation in
degrees, and is rotated about that center (the destination rectangle is
centered on the rotation origin). -/
theorem c9_export_geometry (placedItems : Scene)
    (canvasSize naturalSize : CanvasSize) :
    (drawCommands placedItems canvasSize naturalSize).map
        (fun c => (DrawCmd.center c, c.rotationDeg, DrawCmd.size c))
      = specItemPlacement placedItems canvasSize naturalSize ∧
    (drawCommands placedItems canvasSize naturalSize).map
        (fun c => (c.destX + c.destW / 2, c.destY + c.destH / 2))
      = placedItems.map (fun _ => ((0 : ℚ), (0 : ℚ))) := by
  constructor
  · rw [drawCommands, specItemPlacement, List.map_map]
    apply List.map_congr_left
    intro a _
    simp only [Function.comp, DrawCmd.center, DrawCmd.size, Prod.mk.injEq]
    norm_num
    constructor <;> ring
  · rw [drawCommands, List.map_map]
    apply List.map_congr_left
    intro a _
    simp only [Function.comp, Prod.mk.injEq]
    norm_num
    constructor <;> ring

end DndStudio
